/-
Verification of the cache-resolution and metadata engine of bacpipe
(`bacpipe/generate_embeddings.py`).

The Python module is shallowly embedded below.  Filesystem state is made
explicit: a candidate cache directory is represented by the observations the
resolver makes of it (its name, whether a `*yml` glob is non-empty, whether
`rmdir` would succeed, the `model_name` recorded in its metadata file, and the
number of `*.npy` artifacts found by `rglob`).  The corpus is represented by
the list of paths the suffix globs would return.  Python floats used for file
durations are embedded as exact rationals, which is faithful for the additive
bookkeeping verified here; where float rounding is load-bearing — the
`np.arange` timestamp count — IEEE-754 binary64 rounding is modelled
explicitly (`fl64`).
-/
import Mathlib

namespace Bacpipe

/-- Python's substring test `sub in s`, on lists of characters:
`true` iff `sub` occurs contiguously inside `l`. -/
def infixOfList : List Char → List Char → Bool
  | sub, [] => sub.isEmpty
  | sub, a :: t => sub.isPrefixOf (a :: t) || infixOfList sub t

/-- Python's `sub in s` for strings. -/
def strContains (s sub : String) : Bool :=
  infixOfList sub.data s.data

/-- The observations `Loader._find_existing_embed_dir` makes of one candidate
directory `d` under the embeddings parent directory. -/
structure EmbedDir where
  /-- `d.parts[-1]` (equally `d.stem`: generated cache names contain no dot). -/
  name : String
  /-- whether `list(d.glob("*yml"))` is non-empty. -/
  hasYml : Bool
  /-- whether the directory is empty, i.e. whether `d.rmdir()` succeeds
  (raises `OSError` otherwise). -/
  isEmptyDir : Bool
  /-- the `model_name` entry of `d/metadata.yml` (read when `hasYml`). -/
  mdataModelName : String
  /-- `len(list(d.rglob("*.npy")))`, the raw-artifact count under `d`. -/
  npyCount : Nat
deriving DecidableEq, Repr

/-- `np.unique`: sorted distinct values (here: of a list of path strings). -/
def npUnique (l : List String) : List String :=
  (l.insertionSort (· ≤ ·)).dedup

/-- `Loader._get_audio_files`: collect the suffix-glob results (`found`),
pass them through `np.unique`, and assert the result is non-empty.
The failed assertion is the `Except.error` case. -/
def get_audio_files (found : List String) : Except String (List String) :=
  let files_list := npUnique found
  if files_list.length > 0 then .ok files_list
  else .error "No audio files found in audio_dir."

/-- `Loader._get_audio_paths` (fresh generation): enumerate audio files, then
`self.files.sort()`. -/
def get_audio_paths (found : List String) : Except String (List String) :=
  match get_audio_files found with
  | .error e => .error e
  | .ok files => .ok (files.insertionSort (· ≤ ·))

/-- Terminal state of one raw-mode scan of `Loader._find_existing_embed_dir`:
either a candidate was selected with the artifact-count check performed
(`reusedVerified`), or selected although `_get_audio_files` raised its
assertion (`reusedDegraded`, the warning path), or the scan fell through
(`notFound`, i.e. `combination_already_exists` stays `False`). -/
inductive RawOutcome
  | reusedVerified (d : EmbedDir)
  | reusedDegraded (d : EmbedDir)
  | notFound
deriving DecidableEq, Repr

/-- Result of a raw-mode scan: the outcome plus the side effects on disk —
which metadata-less directories were `rmdir`ed and which were reported for
manual removal. -/
structure RawScan where
  outcome : RawOutcome
  deleted : List EmbedDir
  reported : List EmbedDir
deriving DecidableEq, Repr

/-- `Loader._find_existing_embed_dir`, specialized to raw-embedding requests
(`dim_reduction_model = False`, `embed_suffix = ".npy"`), acting on the
candidate list in iteration order (the caller passes the sorted list
reversed).  `audioFound` is the corpus suffix-glob result used by
`_get_audio_files`. -/
def find_existing_embed_dir (model_name audio_stem : String)
    (audioFound : List String) : List EmbedDir → RawScan
  | [] => ⟨.notFound, [], []⟩
  | d :: rest =>
    if strContains d.name model_name && strContains d.name audio_stem then
      if d.hasYml = false then
        if d.isEmptyDir then
          let s := find_existing_embed_dir model_name audio_stem audioFound rest
          ⟨s.outcome, d :: s.deleted, s.reported⟩
        else
          let s := find_existing_embed_dir model_name audio_stem audioFound rest
          ⟨s.outcome, s.deleted, d :: s.reported⟩
      else if d.mdataModelName ≠ model_name then
        find_existing_embed_dir model_name audio_stem audioFound rest
      else
        match get_audio_files audioFound with
        | .error _ => ⟨.reusedDegraded d, [], []⟩
        | .ok files =>
          if files.length = d.npyCount then ⟨.reusedVerified d, [], []⟩
          else find_existing_embed_dir model_name audio_stem audioFound rest
    else find_existing_embed_dir model_name audio_stem audioFound rest

/-- The `check_if_combination_exists` constructor argument: Python `False`,
`True`, or an explicit override cache name (a `str`). -/
inductive CheckFlag
  | noCheck
  | check
  | override (s : String)

/-- `Loader.check_embeds_already_exist` for a raw-embedding request.
`parentEntries` is `list(Path(embed_parent_dir).iterdir())`; `resolveName`
gives the observations of the directory `existing_embed_dirs[0].parent / s`
named by an override.  Indexing `existing_embed_dirs[0]` on an empty listing
raises `IndexError` (the `Except.error` case).  An empty override string is
falsy in Python, so the whole block is skipped. -/
def check_embeds_already_exist (flag : CheckFlag) (parentEntries : List EmbedDir)
    (resolveName : String → EmbedDir) (model_name audio_stem : String)
    (audioFound : List String) : Except String RawScan :=
  match flag with
  | .noCheck => .ok ⟨.notFound, [], []⟩
  | .check => .ok (find_existing_embed_dir model_name audio_stem audioFound
      ((parentEntries.insertionSort (fun a b => a.name ≤ b.name)).reverse))
  | .override s =>
    if s = "" then .ok ⟨.notFound, [], []⟩
    else if parentEntries = [] then .error "list index out of range"
    else .ok (find_existing_embed_dir model_name audio_stem audioFound
      (([resolveName s].insertionSort (fun a b => a.name ≤ b.name)).reverse))

/-- The condition under which one iteration of
`Loader._find_existing_embed_dir` (raw mode) selects its candidate and breaks
out of the loop: the directory name contains both identifiers, a `*yml` glob
is non-empty, the recorded `model_name` matches, and the artifact count equals
the audio-file count — or that enumeration raises, which also selects. -/
def compatibleRaw (model stem : String) (audioFound : List String)
    (d : EmbedDir) : Bool :=
  strContains d.name model && strContains d.name stem && d.hasYml
    && (d.mdataModelName == model)
    && (match get_audio_files audioFound with
        | .error _ => true
        | .ok files => files.length == d.npyCount)

/-- The scan terminated by selecting directory `d` (with or without the
artifact-count verification having been performed). -/
def selectsDir (s : RawScan) (d : EmbedDir) : Prop :=
  s.outcome = .reusedVerified d ∨ s.outcome = .reusedDegraded d

instance : IsTotal EmbedDir (fun a b : EmbedDir => a.name ≤ b.name) :=
  ⟨fun a b => le_total a.name b.name⟩

instance : IsTrans EmbedDir (fun a b : EmbedDir => a.name ≤ b.name) :=
  ⟨fun _ _ _ h h' => le_trans h h'⟩

/-- Round a rational to the nearest integer, ties to the even integer — the
rounding of IEEE-754 round-to-nearest-even once the value is scaled into
integer mantissa units. -/
def roundNearestEven (x : ℚ) : ℤ :=
  if x - ⌊x⌋ < 1 / 2 then ⌊x⌋
  else if 1 / 2 < x - ⌊x⌋ then ⌊x⌋ + 1
  else if ⌊x⌋ % 2 = 0 then ⌊x⌋ else ⌊x⌋ + 1

/-- The IEEE-754 binary64 value nearest a positive rational: the exact value
is scaled by the power of two that puts it in `[2^52, 2^53)`, the mantissa is
rounded to nearest (ties to even), and the result scaled back.  This models
the rounding of every Python/NumPy double operation the timestamp code
performs (all intermediate values here are positive, normal, and far from
overflow; those regimes are therefore not modelled). -/
def fl64 (q : ℚ) : ℚ :=
  if q ≤ 0 then 0
  else (roundNearestEven (q * (2 : ℚ) ^ ((52 : ℤ) - Int.log 2 q)) : ℚ)
    * (2 : ℚ) ^ (Int.log 2 q - 52)

/-- `input_len` as computed in `Embedder.save_embeddings`: the Python float
quotient `segment_length (samples) / sample_rate (Hz)` (int/int true
division, correctly rounded to binary64). -/
def input_len (segment_length sr : Nat) : ℚ :=
  fl64 ((segment_length : ℚ) / (sr : ℚ))

/-- The length of `np.arange(0, stop, step)` for binary64 `stop` and `step`:
NumPy computes `ceil((stop - start)/step)` in doubles; with `start = 0` the
subtraction is exact, so the length is the exact ceiling of the rounded
double quotient. -/
def np_arange_length (stop step : ℚ) : ℤ :=
  Int.ceil (fl64 (stop / step))

/-- The total number of timestamps emitted by the `t_stamps` loop of
`save_embeddings_dict_with_timestamps`: for each `(num_segments, dim)` entry
of `embedding_dimensions` the loop appends the elements of
`np.arange(0, num_segments * input_len, input_len)`, whose `stop` argument is
the Python float product `num_segments * input_len` (exact int-to-double
conversion, then one binary64 multiplication). -/
def t_stamps_count (embedding_dimensions : List (Nat × Nat))
    (input_len : ℚ) : ℤ :=
  (embedding_dimensions.map
    (fun nd => np_arange_length (fl64 ((nd.1 : ℚ) * input_len)) input_len)).sum

/-- Terminal outcome of one scan of `Loader._find_existing_embed_dir`,
covering both stages: raw selection with or without count verification,
reduction-stage selection (`self.dim_reduction_model in d.stem`, break), the
`return d` exit that hands a raw directory back as the upstream source of a
reduction request (ending the scan with nothing selected), or falling
through the loop. -/
inductive ScanOutcome
  | reusedVerified (d : EmbedDir)
  | reusedDegraded (d : EmbedDir)
  | reusedReduction (d : EmbedDir)
  | upstreamRaw (d : EmbedDir)
  | notFound
deriving DecidableEq, Repr

/-- Result of a stage-generic scan: outcome plus on-disk side effects. -/
structure FullScan where
  outcome : ScanOutcome
  deleted : List EmbedDir
  reported : List EmbedDir
deriving DecidableEq, Repr

/-- `Loader._find_existing_embed_dir` in full stage generality:
`dim_reduction_model` is `some r` when the loader holds a (truthy) reduction
model name `r`, `none` for raw-embedding requests.  In reduction mode a
candidate passing the name and metadata checks is selected iff the reduction
name appears in its directory name; otherwise the function executes
`return d` (line 126), which terminates the scan immediately — older
candidates are never examined and nothing is marked reusable. -/
def find_existing_embed_dir_any (dim_reduction_model : Option String)
    (model_name audio_stem : String) (audioFound : List String) :
    List EmbedDir → FullScan
  | [] => ⟨.notFound, [], []⟩
  | d :: rest =>
    if strContains d.name model_name && strContains d.name audio_stem then
      if d.hasYml = false then
        if d.isEmptyDir then
          let s := find_existing_embed_dir_any dim_reduction_model model_name
            audio_stem audioFound rest
          ⟨s.outcome, d :: s.deleted, s.reported⟩
        else
          let s := find_existing_embed_dir_any dim_reduction_model model_name
            audio_stem audioFound rest
          ⟨s.outcome, s.deleted, d :: s.reported⟩
      else if d.mdataModelName ≠ model_name then
        find_existing_embed_dir_any dim_reduction_model model_name audio_stem
          audioFound rest
      else
        match dim_reduction_model with
        | some r =>
          if strContains d.name r then ⟨.reusedReduction d, [], []⟩
          else ⟨.upstreamRaw d, [], []⟩
        | none =>
          match get_audio_files audioFound with
          | .error _ => ⟨.reusedDegraded d, [], []⟩
          | .ok files =>
            if files.length = d.npyCount then ⟨.reusedVerified d, [], []⟩
            else find_existing_embed_dir_any dim_reduction_model model_name
              audio_stem audioFound rest
    else find_existing_embed_dir_any dim_reduction_model model_name audio_stem
      audioFound rest

/-- Injection of the raw-specialized outcomes into the stage-generic ones. -/
def RawOutcome.toScanOutcome : RawOutcome → ScanOutcome
  | .reusedVerified d => .reusedVerified d
  | .reusedDegraded d => .reusedDegraded d
  | .notFound => .notFound

/-- The `files` sub-dictionary of `Loader.metadata_dict`. -/
structure FilesRecord where
  audio_files : List String
  /-- `file_lengths (s)` -/
  file_lengths_s : List ℚ
  nr_embeds_per_file : List Nat
deriving DecidableEq, Repr

/-- `Loader.metadata_dict`.  Keys absent until first written are `Option`. -/
structure MetadataDict where
  model_name : String
  audio_dir : String
  embed_dir : String
  files : FilesRecord
  /-- `segment_length (samples)` -/
  segment_length_samples : Option Nat
  /-- `sample_rate (Hz)` -/
  sample_rate_Hz : Option Nat
  embedding_size : Option Nat
  nr_embeds_total : Option Nat
  /-- `total_dataset_length (s)` -/
  total_dataset_length_s : Option ℚ
deriving DecidableEq, Repr

/-- `Loader._init_metadata_dict`. -/
def init_metadata_dict (model_name audio_dir embed_dir : String) : MetadataDict :=
  ⟨model_name, audio_dir, embed_dir, ⟨[], [], []⟩, none, none, none, none, none⟩

/-- `Loader.write_audio_file_to_metadata`.  `embeds_shape0` is
`embeddings.shape[0]`, `embeds_shapeLast` is `embeddings.shape[-1]`;
`file_length` is `embed.file_length`; `segment_length`/`sr` come from
`embed.model`. -/
def write_audio_file_to_metadata (md : MetadataDict) (index : Nat)
    (rel_file_path : String) (file_length : ℚ) (segment_length sr : Nat)
    (embeds_shape0 embeds_shapeLast : Nat) : MetadataDict :=
  let md' :=
    if index = 0 then
      { md with segment_length_samples := some segment_length,
                sample_rate_Hz := some sr,
                embedding_size := some embeds_shapeLast }
    else md
  { md' with files :=
      ⟨md'.files.audio_files ++ [rel_file_path],
       md'.files.file_lengths_s ++ [file_length],
       md'.files.nr_embeds_per_file ++ [embeds_shape0]⟩ }

/-- `Loader.write_metadata_file`: recompute the two aggregates from the
per-file sequences, then serialize.  The returned record is the one written
to `metadata.yml`. -/
def write_metadata_file (md : MetadataDict) : MetadataDict :=
  { md with nr_embeds_total := some md.files.nr_embeds_per_file.sum,
            total_dataset_length_s := some md.files.file_lengths_s.sum }

/-- A broken-down local time, the part of `time.localtime()` consumed by the
format directives `get_timestamp_dir` uses. -/
structure Tm where
  year : Nat
  mon : Nat
  mday : Nat
  hour : Nat
  min : Nat
deriving DecidableEq, Repr

/-- A number rendered as two decimal digits, zero-padded (`%m`, `%d`, `%H`,
`%M`). -/
def pad2 (n : Nat) : List Char :=
  [Nat.digitChar ((n / 10) % 10), Nat.digitChar (n % 10)]

/-- A year rendered as four decimal digits, zero-padded (`%Y`, for years
below 10000). -/
def pad4 (n : Nat) : List Char :=
  [Nat.digitChar ((n / 1000) % 10), Nat.digitChar ((n / 100) % 10),
   Nat.digitChar ((n / 10) % 10), Nat.digitChar (n % 10)]

/-- Expansion of a single `%`-directive by `time.strftime` (glibc): the
directives the code's format uses, `%%`, and pass-through of an unknown
directive. -/
def strfChar (t : Tm) (c : Char) : List Char :=
  if c = 'Y' then pad4 t.year
  else if c = 'm' then pad2 t.mon
  else if c = 'd' then pad2 t.mday
  else if c = 'H' then pad2 t.hour
  else if c = 'M' then pad2 t.min
  else if c = '%' then ['%']
  else ['%', c]

/-- `time.strftime` over the characters of the format string: a `%` consumes
the following character as a directive, everything else is copied. -/
def strftimeChars (t : Tm) : List Char → List Char
  | [] => []
  | c :: rest =>
    if c = '%' then
      match rest with
      | [] => ['%']
      | c2 :: rest2 => strfChar t c2 ++ strftimeChars t rest2
    else c :: strftimeChars t rest

/-- `time.strftime(fmt, t)`. -/
def strftime (t : Tm) (fmt : String) : String :=
  ⟨strftimeChars t fmt.data⟩

/-- The identifier `get_timestamp_dir` puts into the directory name: the
reduction model name when `dim_reduction_model` is truthy, otherwise the
model name (Python's `if self.dim_reduction_model:` — the empty string is
falsy). -/
def stage_model_name (dim_reduction_model : Option String)
    (model_name : String) : String :=
  match dim_reduction_model with
  | some s => if s = "" then model_name else s
  | none => model_name

/-- `Loader.get_timestamp_dir`: note that the model and corpus identifiers
are concatenated into the *format string* handed to `time.strftime`. -/
def get_timestamp_dir (t : Tm) (dim_reduction_model : Option String)
    (model_name audio_stem : String) : String :=
  strftime t ("%Y-%m-%d_%H-%M___" ++ stage_model_name dim_reduction_model model_name
    ++ "-" ++ audio_stem)

end Bacpipe

namespace Bacpipe

theorem npUnique_eq_nil_iff (l : List String) : npUnique l = [] ↔ l = [] := by
  unfold npUnique
  rw [List.dedup_eq_nil]
  constructor
  · intro h
    have hp := List.perm_insertionSort (α := String) (· ≤ ·) l
    rw [h] at hp
    exact hp.symm.eq_nil
  · intro h
    subst h
    rfl

theorem get_audio_files_ok {l : List String} (h : l ≠ []) :
    get_audio_files l = .ok (npUnique l) := by
  have hne : npUnique l ≠ [] := by rwa [Ne, npUnique_eq_nil_iff]
  unfold get_audio_files
  simp [List.length_pos.mpr hne]

theorem get_audio_files_err : get_audio_files [] = .error "No audio files found in audio_dir." :=
  rfl

/-- C2: each append extends the three per-file sequences by exactly one
element (so equal lengths are preserved), and after the flush the stored
aggregates are the sums of the per-file sequences, recomputed at flush
time. -/
theorem append_and_flush_invariants (md : MetadataDict) (index : Nat)
    (rel : String) (len : ℚ) (segLen sr n esz : Nat) :
    ((write_audio_file_to_metadata md index rel len segLen sr n esz).files.audio_files.length
        = md.files.audio_files.length + 1
      ∧ (write_audio_file_to_metadata md index rel len segLen sr n esz).files.file_lengths_s.length
        = md.files.file_lengths_s.length + 1
      ∧ (write_audio_file_to_metadata md index rel len segLen sr n esz).files.nr_embeds_per_file.length
        = md.files.nr_embeds_per_file.length + 1)
    ∧ (∀ m : MetadataDict,
        (write_metadata_file m).nr_embeds_total = some m.files.nr_embeds_per_file.sum
        ∧ (write_metadata_file m).total_dataset_length_s = some m.files.file_lengths_s.sum
        ∧ (write_metadata_file m).files = m.files) := by
  refine ⟨?_, fun m => ⟨rfl, rfl, rfl⟩⟩
  unfold write_audio_file_to_metadata
  by_cases h : index = 0 <;> simp [h]

/-- C1: for a raw-embedding request, once a candidate passes the name and
metadata-model checks and the corpus enumeration succeeds, the resolver marks
the candidate reusable (and stops scanning) exactly when the `.npy` artifact
count equals the current audio-file count; on inequality it continues with
the older candidates. -/
theorem raw_reuse_iff_artifact_count_matches (d : EmbedDir) (rest : List EmbedDir)
    (model stem : String) (audioFound : List String)
    (h1 : strContains d.name model = true) (h2 : strContains d.name stem = true)
    (hy : d.hasYml = true) (hm : d.mdataModelName = model)
    (he : audioFound ≠ []) :
    ((npUnique audioFound).length = d.npyCount →
      find_existing_embed_dir model stem audioFound (d :: rest)
        = ⟨.reusedVerified d, [], []⟩)
    ∧ ((npUnique audioFound).length ≠ d.npyCount →
      find_existing_embed_dir model stem audioFound (d :: rest)
        = find_existing_embed_dir model stem audioFound rest) := by
  constructor <;> intro hc <;>
    simp [find_existing_embed_dir, h1, h2, hy, hm, get_audio_files_ok he, hc]

theorem raw_reuse_iff_artifact_count_matches_witness :
    (find_existing_embed_dir "mmm" "ccc" ["a.wav"]
        [⟨"2024-01-01_10-00___mmm-ccc", true, false, "mmm", 1⟩]
      = ⟨.reusedVerified ⟨"2024-01-01_10-00___mmm-ccc", true, false, "mmm", 1⟩, [], []⟩)
    ∧ (find_existing_embed_dir "mmm" "ccc" ["a.wav"]
        [⟨"2024-01-01_10-00___mmm-ccc", true, false, "mmm", 2⟩]
      = ⟨.notFound, [], []⟩) := by
  have h := raw_reuse_iff_artifact_count_matches
    ⟨"2024-01-01_10-00___mmm-ccc", true, false, "mmm", 1⟩ [] "mmm" "ccc" ["a.wav"]
    (by decide) (by decide) rfl rfl (by decide)
  have h' := raw_reuse_iff_artifact_count_matches
    ⟨"2024-01-01_10-00___mmm-ccc", true, false, "mmm", 2⟩ [] "mmm" "ccc" ["a.wav"]
    (by decide) (by decide) rfl rfl (by decide)
  exact ⟨h.1 (by decide), h'.2 (by decide)⟩

/-- C3: a candidate whose directory name contains both identifiers but whose
metadata records a different `model_name` is skipped: the scan result on
`d :: rest` equals the scan result on `rest` alone, so the name-substring
match never yields reuse by itself. -/
theorem metadata_model_mismatch_skips (d : EmbedDir) (rest : List EmbedDir)
    (model stem : String) (audioFound : List String)
    (h1 : strContains d.name model = true) (h2 : strContains d.name stem = true)
    (hy : d.hasYml = true) (hm : d.mdataModelName ≠ model) :
    find_existing_embed_dir model stem audioFound (d :: rest)
      = find_existing_embed_dir model stem audioFound rest := by
  simp [find_existing_embed_dir, h1, h2, hy, hm]

theorem metadata_model_mismatch_skips_witness :
    find_existing_embed_dir "X" "corpus" ["a.wav"]
        [⟨"2024-01-01_10-00___X-corpus", true, false, "Y", 1⟩]
      = ⟨.notFound, [], []⟩ :=
  metadata_model_mismatch_skips ⟨"2024-01-01_10-00___X-corpus", true, false, "Y", 1⟩
    [] "X" "corpus" ["a.wav"] (by decide) (by decide) rfl (by decide)

/-- C4 (amended): among candidates whose name contains both identifiers, one
with no metadata file is never selected at its position: the outcome is that
of scanning the remaining candidates, the directory is deleted when empty,
and reported for manual removal (contents untouched) when non-empty. -/
theorem no_metadata_candidate_pruned_or_reported (d : EmbedDir)
    (rest : List EmbedDir) (model stem : String) (audioFound : List String)
    (h1 : strContains d.name model = true) (h2 : strContains d.name stem = true)
    (hy : d.hasYml = false) :
    find_existing_embed_dir model stem audioFound (d :: rest)
      = (let s := find_existing_embed_dir model stem audioFound rest
         if d.isEmptyDir then ⟨s.outcome, d :: s.deleted, s.reported⟩
         else ⟨s.outcome, s.deleted, d :: s.reported⟩) := by
  by_cases hemp : d.isEmptyDir <;>
    simp [find_existing_embed_dir, h1, h2, hy, hemp]

theorem no_metadata_candidate_pruned_or_reported_witness :
    find_existing_embed_dir "m" "c" ["a.wav"] [⟨"2024___m-c", false, true, "", 0⟩]
      = ⟨.notFound, [⟨"2024___m-c", false, true, "", 0⟩], []⟩ := by
  have h := no_metadata_candidate_pruned_or_reported
    ⟨"2024___m-c", false, true, "", 0⟩ [] "m" "c" ["a.wav"]
    (by decide) (by decide) rfl
  simpa using h

/-- C4 (counterexample to the claim as stated): an empty candidate directory
with no metadata file whose name does not contain the model identifier is
not deleted — the resolver's name-substring filter runs before the
metadata/pruning check, so the scan leaves it in place. -/
theorem no_metadata_unmatched_candidate_not_deleted :
    ((⟨"zzz", false, true, "m", 0⟩ : EmbedDir).hasYml = false
      ∧ (⟨"zzz", false, true, "m", 0⟩ : EmbedDir).isEmptyDir = true)
    ∧ (find_existing_embed_dir "m" "c" ["a.wav"]
        [⟨"zzz", false, true, "m", 0⟩]).deleted = [] := by
  decide

/-- C5: if the corpus enumeration raises its assertion (no file matches any
audio suffix) while verifying a candidate that passed the name and
metadata-model checks, the resolver treats the candidate as reusable anyway:
it stops scanning with the degraded-reuse outcome instead of aborting. -/
theorem corpus_enumeration_failure_degrades_to_reuse (d : EmbedDir)
    (rest : List EmbedDir) (model stem : String) (audioFound : List String)
    (h1 : strContains d.name model = true) (h2 : strContains d.name stem = true)
    (hy : d.hasYml = true) (hm : d.mdataModelName = model)
    (he : audioFound = []) :
    find_existing_embed_dir model stem audioFound (d :: rest)
      = ⟨.reusedDegraded d, [], []⟩ := by
  subst he
  simp [find_existing_embed_dir, h1, h2, hy, hm, get_audio_files_err]

theorem corpus_enumeration_failure_degrades_to_reuse_witness :
    find_existing_embed_dir "mmm" "ccc" []
        [⟨"2024-01-01_10-00___mmm-ccc", true, false, "mmm", 7⟩]
      = ⟨.reusedDegraded ⟨"2024-01-01_10-00___mmm-ccc", true, false, "mmm", 7⟩, [], []⟩ :=
  corpus_enumeration_failure_degrades_to_reuse
    ⟨"2024-01-01_10-00___mmm-ccc", true, false, "mmm", 7⟩ [] "mmm" "ccc" []
    (by decide) (by decide) rfl rfl rfl

theorem int_log_eq {q : ℚ} {e : ℤ} (hq : 0 < q)
    (h1 : (2 : ℚ) ^ e ≤ q) (h2 : q < (2 : ℚ) ^ (e + 1)) : Int.log 2 q = e := by
  have hb : (1 : ℕ) < 2 := by norm_num
  have hle : e ≤ Int.log 2 q := by
    rw [← Int.zpow_le_iff_le_log hb hq]
    exact_mod_cast h1
  have hlt : Int.log 2 q < e + 1 := by
    rw [← Int.lt_zpow_iff_log_lt hb hq]
    exact_mod_cast h2
  omega

theorem rne_eval {x : ℚ} {f : ℤ} (hf : ⌊x⌋ = f) :
    roundNearestEven x = if x - f < 1 / 2 then f
      else if 1 / 2 < x - f then f + 1
      else if f % 2 = 0 then f else f + 1 := by
  rw [roundNearestEven, hf]

theorem fl64_eval {q : ℚ} {e m : ℤ} (hq : 0 < q)
    (h1 : (2 : ℚ) ^ e ≤ q) (h2 : q < (2 : ℚ) ^ (e + 1))
    (hm : roundNearestEven (q * (2 : ℚ) ^ ((52 : ℤ) - e)) = m) :
    fl64 q = m * (2 : ℚ) ^ (e - 52) := by
  rw [fl64, if_neg (not_le.mpr hq), int_log_eq hq h1 h2, hm]

/-- C6 (code bug): with `segment_length = 1600` samples and
`sample_rate = 16000` Hz, `input_len` is the binary64 value nearest `0.1`;
for a file with 3 embedding frames the stop `3 * input_len` rounds *up*
(a tie resolved to the even mantissa), the double quotient `stop/step`
becomes `3 + 2⁻⁵¹`, and `np.arange` emits `⌈3 + 2⁻⁵¹⌉ = 4` timestamps — one
more than the frame count, so the timestamp array is longer than
`sum(nr_embeds_per_file) = 3`, contradicting the specified reconstruction. -/
theorem timestamp_count_overshoots_frame_count :
    t_stamps_count [(3, 2)] (input_len 1600 16000) = 4
    ∧ (([(3, 2)] : List (Nat × Nat)).map (fun nd => (nd.1 : ℤ))).sum = 3 := by
  constructor
  · have hd1 : input_len 1600 16000
        = 7205759403792794 * (2 : ℚ) ^ (-(56 : ℤ)) := by
      have hcast : ((1600 : Nat) : ℚ) / ((16000 : Nat) : ℚ) = 1 / 10 := by
        norm_num
      rw [input_len, hcast]
      have hx : (1 / 10 : ℚ) * (2 : ℚ) ^ ((52 : ℤ) - (-4))
          = 36028797018963968 / 5 := by
        norm_num
      have hf : ⌊(36028797018963968 / 5 : ℚ)⌋ = 7205759403792793 := by
        rw [Int.floor_eq_iff]; norm_num
      have hm : roundNearestEven ((1 / 10 : ℚ) * (2 : ℚ) ^ ((52 : ℤ) - (-4)))
          = 7205759403792794 := by
        rw [hx, rne_eval hf]
        norm_num
      rw [fl64_eval (e := -4) (by norm_num) (by norm_num) (by norm_num) hm]
      norm_num
    have hd3 : fl64 ((3 : ℚ) * input_len 1600 16000)
        = 5404319552844596 * (2 : ℚ) ^ (-(54 : ℤ)) := by
      rw [hd1, show (3 : ℚ) * (7205759403792794 * (2 : ℚ) ^ (-(56 : ℤ)))
        = 21617278211378382 * (2 : ℚ) ^ (-(56 : ℤ)) by ring]
      have hx : (21617278211378382 : ℚ) * (2 : ℚ) ^ (-(56 : ℤ))
          * (2 : ℚ) ^ ((52 : ℤ) - (-2)) = 10808639105689191 / 2 := by
        rw [show ((52 : ℤ) - (-2)) = 54 by norm_num]
        norm_num
      have hf : ⌊(10808639105689191 / 2 : ℚ)⌋ = 5404319552844595 := by
        rw [Int.floor_eq_iff]; norm_num
      have hm : roundNearestEven ((21617278211378382 : ℚ)
          * (2 : ℚ) ^ (-(56 : ℤ)) * (2 : ℚ) ^ ((52 : ℤ) - (-2)))
          = 5404319552844596 := by
        rw [hx, rne_eval hf]
        norm_num
      rw [fl64_eval (e := -2) (by positivity) (by norm_num) (by norm_num) hm]
      norm_num
    have hq : (5404319552844596 : ℚ) * (2 : ℚ) ^ (-(54 : ℤ))
        / (7205759403792794 * (2 : ℚ) ^ (-(56 : ℤ)))
        = 10808639105689192 / 3602879701896397 := by
      rw [div_eq_iff (by positivity)]
      norm_num
    have hfq : fl64 ((10808639105689192 : ℚ) / 3602879701896397)
        = 6755399441055745 * (2 : ℚ) ^ (-(51 : ℤ)) := by
      have hx : (10808639105689192 : ℚ) / 3602879701896397
          * (2 : ℚ) ^ ((52 : ℤ) - 1)
          = 6755399441055744 + 2251799813685248 / 3602879701896397 := by
        norm_num
      have hf : ⌊(6755399441055744 + 2251799813685248 / 3602879701896397 : ℚ)⌋
          = 6755399441055744 := by
        rw [Int.floor_eq_iff]; norm_num
      have hm : roundNearestEven ((10808639105689192 : ℚ) / 3602879701896397
          * (2 : ℚ) ^ ((52 : ℤ) - 1)) = 6755399441055745 := by
        rw [hx, rne_eval hf]
        norm_num
      rw [fl64_eval (e := 1) (by norm_num) (by norm_num) (by norm_num) hm]
      norm_num
    simp only [t_stamps_count, List.map_cons, List.map_nil, List.sum_cons,
      List.sum_nil, np_arange_length, Nat.cast_ofNat]
    rw [hd3, hd1, hq, hfq, add_zero, Int.ceil_eq_iff]
    norm_num
  · simp

/-- C8: fresh corpus enumeration fails with the empty-corpus assertion exactly
when no path matched any configured audio suffix, and any successfully
returned audio-file list is sorted by path. -/
theorem fresh_enumeration_fails_on_empty_and_sorts (found : List String) :
    (get_audio_paths found = .error "No audio files found in audio_dir."
      ↔ found = [])
    ∧ ∀ fs, get_audio_paths found = .ok fs → fs.Sorted (· ≤ ·) := by
  constructor
  · constructor
    · intro h
      by_contra hne
      rw [get_audio_paths, get_audio_files_ok hne] at h
      exact Except.noConfusion h
    · intro h
      subst h
      rfl
  · intro fs hfs
    by_cases hne : found = []
    · subst hne
      simp [get_audio_paths, get_audio_files_err] at hfs
    · rw [get_audio_paths, get_audio_files_ok hne] at hfs
      cases hfs
      exact List.sorted_insertionSort _ _

theorem fresh_enumeration_fails_on_empty_and_sorts_witness :
    (get_audio_paths [] = .error "No audio files found in audio_dir.")
    ∧ (["b.wav"] : List String).Sorted (· ≤ ·) :=
  ⟨(fresh_enumeration_fails_on_empty_and_sorts []).1.mpr rfl,
   (fresh_enumeration_fails_on_empty_and_sorts ["b.wav"]).2 ["b.wav"] rfl⟩

/-- C10: with an explicit (non-empty) override cache name, an empty cache
parent directory makes resolution raise `IndexError` from
`existing_embed_dirs[0]` instead of reporting not-found; with a non-empty
parent directory, resolution returns normally, scanning exactly the single
named directory. -/
theorem override_requires_nonempty_parent (s : String) (hs : s ≠ "")
    (resolveName : String → EmbedDir) (model stem : String)
    (audioFound : List String) :
    (check_embeds_already_exist (.override s) [] resolveName model stem audioFound
      = .error "list index out of range")
    ∧ ∀ entries : List EmbedDir, entries ≠ [] →
        check_embeds_already_exist (.override s) entries resolveName model stem
            audioFound
          = .ok (find_existing_embed_dir model stem audioFound [resolveName s]) := by
  constructor
  · simp [check_embeds_already_exist, hs]
  · intro entries hne
    simp [check_embeds_already_exist, hs, hne, List.insertionSort,
      List.orderedInsert]

theorem find_cons_of_compatible {model stem : String} {audioFound : List String}
    {d : EmbedDir} (rest : List EmbedDir)
    (h : compatibleRaw model stem audioFound d = true) :
    find_existing_embed_dir model stem audioFound (d :: rest)
        = ⟨.reusedVerified d, [], []⟩
      ∨ find_existing_embed_dir model stem audioFound (d :: rest)
        = ⟨.reusedDegraded d, [], []⟩ := by
  unfold compatibleRaw at h
  simp only [Bool.and_eq_true, beq_iff_eq] at h
  obtain ⟨⟨⟨⟨h1, h2⟩, hy⟩, hm⟩, hlast⟩ := h
  cases heq : get_audio_files audioFound with
  | error e =>
    right
    simp [find_existing_embed_dir, h1, h2, hy, hm, heq]
  | ok files =>
    rw [heq] at hlast
    simp only [beq_iff_eq] at hlast
    left
    simp [find_existing_embed_dir, h1, h2, hy, hm, heq, hlast]

theorem find_cons_outcome_of_not_compatible {model stem : String}
    {audioFound : List String} {d : EmbedDir} (rest : List EmbedDir)
    (h : compatibleRaw model stem audioFound d = false) :
    (find_existing_embed_dir model stem audioFound (d :: rest)).outcome
      = (find_existing_embed_dir model stem audioFound rest).outcome := by
  by_cases h1 : strContains d.name model = true
  · by_cases h2 : strContains d.name stem = true
    · by_cases hy : d.hasYml = true
      · by_cases hm : d.mdataModelName = model
        · cases heq : get_audio_files audioFound with
          | error e =>
            exfalso
            rw [compatibleRaw, heq, h1, h2, hy, hm] at h
            simp at h
          | ok files =>
            have hne : files.length ≠ d.npyCount := by
              intro hceq
              rw [compatibleRaw, heq, h1, h2, hy, hm] at h
              simp [hceq] at h
            simp [find_existing_embed_dir, h1, h2, hy, hm, heq, hne]
        · simp [find_existing_embed_dir, h1, h2, hy, hm]
      · have hy' : d.hasYml = false := by
          revert hy
          cases d.hasYml <;> simp
        by_cases hemp : d.isEmptyDir <;>
          simp [find_existing_embed_dir, h1, h2, hy', hemp]
    · have h2' : strContains d.name stem = false := by
        revert h2
        cases strContains d.name stem <;> simp
      simp [find_existing_embed_dir, h2']
  · have h1' : strContains d.name model = false := by
      revert h1
      cases strContains d.name model <;> simp
    simp [find_existing_embed_dir, h1']

theorem selects_decomp {model stem : String} {audioFound : List String} :
    ∀ (l : List EmbedDir) (d : EmbedDir),
      selectsDir (find_existing_embed_dir model stem audioFound l) d →
      ∃ l1 l2, l = l1 ++ d :: l2
        ∧ compatibleRaw model stem audioFound d = true
        ∧ ∀ x ∈ l1, compatibleRaw model stem audioFound x = false := by
  intro l
  induction l with
  | nil =>
    intro d h
    rcases h with h | h <;> simp [find_existing_embed_dir] at h
  | cons x rest ih =>
    intro d h
    by_cases hc : compatibleRaw model stem audioFound x = true
    · rcases find_cons_of_compatible rest hc with heq | heq <;> rw [heq] at h <;>
        rcases h with h | h <;> simp only [RawScan.outcome] at h <;>
        first
          | (injection h with hxd
             subst hxd
             exact ⟨[], rest, rfl, hc, by simp⟩)
          | exact absurd h (by simp)
    · have hcf : compatibleRaw model stem audioFound x = false := by
        revert hc
        cases compatibleRaw model stem audioFound x <;> simp
      have hout := find_cons_outcome_of_not_compatible rest hcf
      rw [selectsDir, hout] at h
      obtain ⟨l1, l2, hl, hcd, hall⟩ := ih d h
      refine ⟨x :: l1, l2, by rw [hl]; rfl, hcd, ?_⟩
      intro y hy
      rcases List.mem_cons.mp hy with rfl | hy'
      · exact hcf
      · exact hall y hy'

theorem find_any_none_eq_raw (model stem : String) (audioFound : List String) :
    ∀ l : List EmbedDir,
      find_existing_embed_dir_any none model stem audioFound l
        = ⟨(find_existing_embed_dir model stem audioFound l).outcome.toScanOutcome,
           (find_existing_embed_dir model stem audioFound l).deleted,
           (find_existing_embed_dir model stem audioFound l).reported⟩ := by
  intro l
  induction l with
  | nil => rfl
  | cons d rest ih =>
    by_cases h1 : strContains d.name model = true
    · by_cases h2 : strContains d.name stem = true
      · by_cases hy : d.hasYml = true
        · by_cases hm : d.mdataModelName = model
          · cases heq : get_audio_files audioFound with
            | error e =>
              simp [find_existing_embed_dir_any, find_existing_embed_dir, h1,
                h2, hy, hm, heq, RawOutcome.toScanOutcome]
            | ok files =>
              by_cases hc : files.length = d.npyCount <;>
                simp [find_existing_embed_dir_any, find_existing_embed_dir, h1,
                  h2, hy, hm, heq, hc, ih, RawOutcome.toScanOutcome]
          · simp [find_existing_embed_dir_any, find_existing_embed_dir, h1, h2,
              hy, hm, ih]
        · have hy' : d.hasYml = false := by
            revert hy
            cases d.hasYml <;> simp
          by_cases hemp : d.isEmptyDir <;>
            simp [find_existing_embed_dir_any, find_existing_embed_dir, h1, h2,
              hy', hemp, ih]
      · have h2' : strContains d.name stem = false := by
          revert h2
          cases strContains d.name stem <;> simp
        simp [find_existing_embed_dir_any, find_existing_embed_dir, h2', ih]
    · have h1' : strContains d.name model = false := by
        revert h1
        cases strContains d.name model <;> simp
      simp [find_existing_embed_dir_any, find_existing_embed_dir, h1', ih]

/-- C7 (counterexample to the claim as stated): the claim is not
scoped to raw-embedding requests, but for a reduction request the scan stops
at the newest candidate whose name matches the extractor and corpus while
belonging to a *different* reduction model: that candidate triggers
`return d` (the upstream-raw exit), ending the scan with nothing selected,
although older reduction-compatible candidates exist — as the second
conjunct shows, without the blocking newer directory the very same scan
selects the newest compatible one. -/
theorem reduction_scan_blocked_by_newer_foreign_reduction :
    (find_existing_embed_dir_any (some "umap") "birdnet" "c" ["a.wav"]
        [⟨"2024-03-03_10-00___tsne-c-birdnet", true, false, "birdnet", 0⟩,
         ⟨"2024-02-02_10-00___umap-c-birdnet", true, false, "birdnet", 0⟩,
         ⟨"2024-01-01_10-00___umap-c-birdnet", true, false, "birdnet", 0⟩]).outcome
      = .upstreamRaw ⟨"2024-03-03_10-00___tsne-c-birdnet", true, false,
          "birdnet", 0⟩
    ∧ (find_existing_embed_dir_any (some "umap") "birdnet" "c" ["a.wav"]
        [⟨"2024-02-02_10-00___umap-c-birdnet", true, false, "birdnet", 0⟩,
         ⟨"2024-01-01_10-00___umap-c-birdnet", true, false, "birdnet", 0⟩]).outcome
      = .reusedReduction ⟨"2024-02-02_10-00___umap-c-birdnet", true, false,
          "birdnet", 0⟩ := by
  decide

/-- C7 (amended): for raw-embedding requests, the resolver sorts the
candidates ascending by name and scans them in reverse, so the selected
candidate's name is lexicographically greatest among all compatible
candidates: any other candidate on which the scan would stop has a name `≤`
the selected one's.  (For reduction requests the scan can instead terminate
at a newer foreign-reduction directory via `return d`, never reaching older
compatible candidates.) -/
theorem newest_compatible_candidate_selected (dirs : List EmbedDir)
    (resolveName : String → EmbedDir) (model stem : String)
    (audioFound : List String) (scan : RawScan) (d : EmbedDir)
    (hres : check_embeds_already_exist .check dirs resolveName model stem
        audioFound = .ok scan)
    (hsel : selectsDir scan d) :
    ∀ d' ∈ dirs, compatibleRaw model stem audioFound d' = true →
      d'.name ≤ d.name := by
  intro d' hmem hcomp
  simp only [check_embeds_already_exist, Except.ok.injEq] at hres
  rw [← hres] at hsel
  obtain ⟨l1, l2, hl, hcd, hall⟩ := selects_decomp _ d hsel
  have hpair : ((dirs.insertionSort (fun a b => a.name ≤ b.name)).reverse).Pairwise
      (fun a b : EmbedDir => b.name ≤ a.name) := by
    rw [List.pairwise_reverse]
    exact List.sorted_insertionSort (fun a b : EmbedDir => a.name ≤ b.name) dirs
  have hmem' : d' ∈ l1 ++ d :: l2 := by
    rw [← hl]
    simp [List.mem_reverse, hmem]
  rcases List.mem_append.mp hmem' with hin1 | hin2
  · exact absurd hcomp (by simp [hall d' hin1])
  · rcases List.mem_cons.mp hin2 with rfl | hin2'
    · exact le_refl _
    · have hsub : (d :: l2).Pairwise (fun a b : EmbedDir => b.name ≤ a.name) :=
        List.Pairwise.sublist (List.sublist_append_right l1 (d :: l2))
          (hl ▸ hpair)
      exact (List.pairwise_cons.mp hsub).1 d' hin2'

theorem newest_compatible_candidate_selected_witness :
    (⟨"2024-01-01_10-00___m-c", true, false, "m", 1⟩ : EmbedDir).name
      ≤ (⟨"2024-02-02_10-00___m-c", true, false, "m", 1⟩ : EmbedDir).name := by
  have hle : ("2024-01-01_10-00___m-c" : String) ≤ "2024-02-02_10-00___m-c" := by
    simp
    decide
  have hsort : ([(⟨"2024-01-01_10-00___m-c", true, false, "m", 1⟩ : EmbedDir),
      ⟨"2024-02-02_10-00___m-c", true, false, "m", 1⟩].insertionSort
        (fun a b => a.name ≤ b.name))
      = [⟨"2024-01-01_10-00___m-c", true, false, "m", 1⟩,
         ⟨"2024-02-02_10-00___m-c", true, false, "m", 1⟩] := by
    simp [List.insertionSort, List.orderedInsert, hle]
  have hscan : find_existing_embed_dir "m" "c" ["a.wav"]
      [⟨"2024-02-02_10-00___m-c", true, false, "m", 1⟩,
       ⟨"2024-01-01_10-00___m-c", true, false, "m", 1⟩]
      = ⟨.reusedVerified ⟨"2024-02-02_10-00___m-c", true, false, "m", 1⟩, [], []⟩ := by
    decide
  have hres : check_embeds_already_exist .check
      [⟨"2024-01-01_10-00___m-c", true, false, "m", 1⟩,
       ⟨"2024-02-02_10-00___m-c", true, false, "m", 1⟩]
      (fun _ => ⟨"2024-01-01_10-00___m-c", true, false, "m", 1⟩) "m" "c" ["a.wav"]
      = .ok ⟨.reusedVerified ⟨"2024-02-02_10-00___m-c", true, false, "m", 1⟩,
          [], []⟩ := by
    rw [show check_embeds_already_exist .check
        [⟨"2024-01-01_10-00___m-c", true, false, "m", 1⟩,
         ⟨"2024-02-02_10-00___m-c", true, false, "m", 1⟩]
        (fun _ => ⟨"2024-01-01_10-00___m-c", true, false, "m", 1⟩) "m" "c"
        ["a.wav"]
        = Except.ok (find_existing_embed_dir "m" "c" ["a.wav"]
            (([(⟨"2024-01-01_10-00___m-c", true, false, "m", 1⟩ : EmbedDir),
               ⟨"2024-02-02_10-00___m-c", true, false, "m", 1⟩].insertionSort
                (fun a b => a.name ≤ b.name)).reverse)) from rfl, hsort]
    exact congrArg Except.ok hscan
  exact newest_compatible_candidate_selected
    [⟨"2024-01-01_10-00___m-c", true, false, "m", 1⟩,
     ⟨"2024-02-02_10-00___m-c", true, false, "m", 1⟩]
    (fun _ => ⟨"2024-01-01_10-00___m-c", true, false, "m", 1⟩) "m" "c" ["a.wav"]
    ⟨.reusedVerified ⟨"2024-02-02_10-00___m-c", true, false, "m", 1⟩, [], []⟩
    ⟨"2024-02-02_10-00___m-c", true, false, "m", 1⟩ hres (Or.inl rfl)
    ⟨"2024-01-01_10-00___m-c", true, false, "m", 1⟩ (by simp) (by decide)

theorem strftimeChars_nil (t : Tm) : strftimeChars t [] = [] :=
  rfl

theorem strftimeChars_percent (t : Tm) (c : Char) (rest : List Char) :
    strftimeChars t ('%' :: c :: rest) = strfChar t c ++ strftimeChars t rest :=
  rfl

theorem strftimeChars_other (t : Tm) {c : Char} (hc : c ≠ '%')
    (rest : List Char) :
    strftimeChars t (c :: rest) = c :: strftimeChars t rest := by
  rw [strftimeChars.eq_def]
  simp [hc]

theorem strftimeChars_of_no_percent (t : Tm) :
    ∀ {l : List Char}, '%' ∉ l → strftimeChars t l = l := by
  intro l
  induction l with
  | nil => intro _; rfl
  | cons c rest ih =>
    intro h
    have hc : ¬c = '%' := fun hc => h (hc ▸ List.mem_cons_self c rest)
    have hrest : '%' ∉ rest := fun hr => h (List.mem_cons_of_mem c hr)
    rw [strftimeChars_other t hc, ih hrest]

/-- C9 (amended): for a stage identifier and corpus identifier containing no
`%` character, the allocator returns exactly
`strftime("%Y-%m-%d_%H-%M") ++ "___" ++ stageId ++ "-" ++ corpusId`, where the
stage identifier is the reduction model name when a reduction stage is
requested and the model name otherwise; the function is pure and total. -/
theorem allocator_name_formula_for_percent_free_ids (t : Tm)
    (dim : Option String) (model stem : String)
    (hm : '%' ∉ (stage_model_name dim model).data)
    (hc : '%' ∉ stem.data) :
    get_timestamp_dir t dim model stem
      = strftime t "%Y-%m-%d_%H-%M" ++ "___" ++ stage_model_name dim model
          ++ "-" ++ stem := by
  apply String.ext
  have hnp : '%' ∉ (stage_model_name dim model).data ++ '-' :: stem.data := by
    intro hmem
    rcases List.mem_append.mp hmem with h | h
    · exact hm h
    · rcases List.mem_cons.mp h with h | h
      · exact absurd h (by decide)
      · exact hc h
  have h2 : ("%Y-%m-%d_%H-%M___" : String).data
      = ['%', 'Y', '-', '%', 'm', '-', '%', 'd', '_', '%', 'H', '-', '%', 'M',
         '_', '_', '_'] := rfl
  have h3 : ("%Y-%m-%d_%H-%M" : String).data
      = ['%', 'Y', '-', '%', 'm', '-', '%', 'd', '_', '%', 'H', '-', '%',
         'M'] := rfl
  have h4 : ("-" : String).data = ['-'] := rfl
  have h5 : ("___" : String).data = ['_', '_', '_'] := rfl
  simp only [get_timestamp_dir, strftime, String.data_append, h2, h3, h4, h5,
    List.append_assoc, List.cons_append, List.nil_append]
  simp [strftimeChars_nil, strftimeChars_percent, strftimeChars_other,
    strfChar, strftimeChars_of_no_percent t hnp]

theorem allocator_name_formula_witness :
    get_timestamp_dir ⟨2024, 1, 2, 10, 30⟩ (some "umap") "birdnet" "corpus"
      = strftime ⟨2024, 1, 2, 10, 30⟩ "%Y-%m-%d_%H-%M" ++ "___"
          ++ stage_model_name (some "umap") "birdnet" ++ "-" ++ "corpus" :=
  allocator_name_formula_for_percent_free_ids ⟨2024, 1, 2, 10, 30⟩
    (some "umap") "birdnet" "corpus" (by decide) (by decide)

/-- C9 (counterexample to the claim as stated): the identifiers are spliced
into the *format string* passed to `strftime`, so an identifier containing a
`%` directive is expanded instead of appearing literally — the allocator's
result differs from the claimed concatenation. -/
theorem allocator_interpolates_ids_into_format :
    get_timestamp_dir ⟨2024, 1, 2, 10, 30⟩ none "%M" "corpus"
      ≠ strftime ⟨2024, 1, 2, 10, 30⟩ "%Y-%m-%d_%H-%M" ++ "___" ++ "%M" ++ "-"
          ++ "corpus" := by
  decide

theorem override_requires_nonempty_parent_witness :
    (check_embeds_already_exist (.override "2024___m-c")
        [] (fun _ => ⟨"2024___m-c", true, false, "m", 1⟩) "m" "c" ["a.wav"]
      = .error "list index out of range")
    ∧ (check_embeds_already_exist (.override "2024___m-c")
        [⟨"other", true, false, "m", 1⟩]
        (fun _ => ⟨"2024___m-c", true, false, "m", 1⟩) "m" "c" ["a.wav"]
      = .ok (find_existing_embed_dir "m" "c" ["a.wav"]
          [⟨"2024___m-c", true, false, "m", 1⟩])) := by
  have h := override_requires_nonempty_parent "2024___m-c" (by decide)
    (fun _ => ⟨"2024___m-c", true, false, "m", 1⟩) "m" "c" ["a.wav"]
  exact ⟨h.1, h.2 [⟨"other", true, false, "m", 1⟩] (by decide)⟩

end Bacpipe
